import Mathlib

/-!
# Verification of the Camster facial-recognition core

Shallow embedding of `src/camera/facial_recognition.py` (class
`FacialRecognition`).  External collaborators (OpenCV, MTCNN, dlib,
Keras/ResNet, scipy) are modelled as an environment of abstract
functions; the repository's own control flow is translated faithfully.

Conventions:
* A Python value that may be `None` is an `Option`.
* numpy float values appearing only in comparisons (confidence scores,
  Euclidean distances, thresholds) are modelled as rationals `ℚ`.
* `float('inf')` used to initialise the running minimum distance is
  modelled as `Option ℚ` with `none` standing for `+∞` (see `ltMin`,
  `exceeds`).
* A `cv2.error` raised by `cv2.resize` inside the guarded `try` of
  `_detect_faces` is modelled by the environment's resize returning
  `none`.
-/

set_option autoImplicit false

namespace Camster

/-- An image (numpy `ndarray`): height, width and the pixel grid
(rows of pixel values; channel structure is irrelevant to the claims,
a pixel is one rational).  Mirrors `frame.shape[0] = height`,
`frame.shape[1] = width`. -/
structure Image where
  height : Nat
  width : Nat
  pix : List (List ℚ)
deriving Repr, DecidableEq

/-- numpy's `.size` is the product of all dimensions; it is zero iff
some dimension is zero, so the channel dimension (a positive constant)
is omitted. `img.size == 0` in the source is `Image.size i = 0` here. -/
def Image.size (i : Image) : Nat :=
  i.height * i.width

/-- A detection bounding box `[x, y, width, height]` as produced by
`MTCNN.detect_faces` (`face['box']`, Python ints). -/
structure Box where
  x : Int
  y : Int
  w : Int
  h : Int
deriving Repr, DecidableEq

/-- One entry of the list returned by `MTCNN.detect_faces`: a box and a
confidence score. -/
structure RawFace where
  box : Box
  confidence : ℚ
deriving Repr, DecidableEq

/-- A face as appended to `recognized_faces`: the detector's dict after
`face['label'] = label` — box, confidence and assigned label. -/
structure RecognizedFace where
  box : Box
  confidence : ℚ
  label : String
deriving Repr, DecidableEq

/-- One invocation of the Sighting Recorder
(`self.save_face_image(frame[y:y+height, x:x+width], face['label'])`):
the cropped face region and the label passed. -/
structure SightingCall where
  img : Image
  label : String
deriving Repr, DecidableEq

/-- The external collaborators of the class, as opaque functions.
`M` is the type of affine matrices (`cv2.getAffineTransform` output),
`P` the type of preprocessed input arrays, `E` the type of embeddings
(`model.predict(...).flatten()` output). -/
structure Env (M P E : Type) where
  /-- `cv2.imread path`; `none` models the `None` returned for an
  unreadable file. -/
  imread : String → Option Image
  /-- `cv2.resize(img, (160, 120))`; `none` models a raised
  `cv2.error` (caught in `_detect_faces`). -/
  resize160 : Image → Option Image
  /-- `self.detector.detect_faces(small_img)`. -/
  mtcnnDetect : Image → List RawFace
  /-- `self.shape_predictor`: `none` when the landmark model file is
  absent; otherwise the 68 landmark points for an image and a dlib
  rectangle. -/
  shapePredictor : Option (Image → Box → List (Int × Int))
  /-- `cv2.getAffineTransform(src_points, dst_points)`. -/
  getAffineTransform : List (Int × Int) → List (Int × Int) → M
  /-- `cv2.warpAffine(img, M, (w, h))`. -/
  warpAffine : Image → M → Nat × Nat → Image
  /-- `cv2.resize(img, (224, 224))` on a non-empty image (the call in
  `_preprocess_image` is unguarded and does not fail on valid input). -/
  resize224 : Image → Image
  /-- `np.array(..., dtype=float32)`, `np.expand_dims(..., axis=0)` and
  `preprocess_input` combined. -/
  preprocessInput : Image → P
  /-- `self.model.predict(img_array)` followed by `.flatten()`. -/
  predict : P → E
  /-- `scipy.spatial.distance.euclidean`. -/
  dist : E → E → ℚ
  /-- `cv2.cvtColor(frame, cv2.COLOR_BGR2GRAY)`. -/
  bgr2gray : Image → Image
  /-- `cv2.cvtColor(gray_image, cv2.COLOR_GRAY2BGR)`. -/
  gray2bgr : Image → Image

variable {M P E : Type}

/-- Default `confidence_threshold=0.70` of `_detect_faces`
(the rational 7/10). -/
def defaultConfidenceThreshold : ℚ := mkRat 7 10

/-- Default `recognition_threshold=7` of `recognize_faces`. -/
def defaultRecognitionThreshold : ℚ := 7

/-- `[int(coordinate * 2) for coordinate in face['box']]` with the
source's constant factor 2 generalised so that the intended scaling can
be stated: the source always applies `scaleBox 2`.  (Box coordinates
are already Python ints, so `int(...)` is the identity.) -/
def scaleBox (k : Int) (b : Box) : Box :=
  { x := k * b.x, y := k * b.y, w := k * b.w, h := k * b.h }

/-- `_detect_faces(img, confidence_threshold)` (lines 98–123): return
`[]` for a `None` or zero-size image, resize to 160×120 returning `[]`
on `cv2.error`, run MTCNN, scale every box by the constant 2, and keep
the faces with `confidence >= confidence_threshold`. -/
def detectFaces (env : Env M P E) (img : Option Image) (t : ℚ) : List RawFace :=
  match img with
  | none => []
  | some i =>
    if i.size = 0 then []
    else
      match env.resize160 i with
      | none => []
      | some small =>
        let faces := (env.mtcnnDetect small).map
          (fun f => { f with box := scaleBox 2 f.box })
        faces.filter (fun f => t ≤ f.confidence)

/-- `_warp_affine(img, points)` (lines 147–162): anchor landmarks 36,
45, 30 are mapped to the canonical targets (30,30), (70,30), (50,70)
in a 100×100 output.  (`points[i]` assumes the 68-point convention; a
default is supplied where Python would raise `IndexError`.) -/
def warpAffineFace (env : Env M P E) (img : Image) (points : List (Int × Int)) : Image :=
  let src := [points.getD 36 (0, 0), points.getD 45 (0, 0), points.getD 30 (0, 0)]
  let dst := [((30 : Int), (30 : Int)), (70, 30), (50, 70)]
  env.warpAffine img (env.getAffineTransform src dst) (100, 100)

/-- `_align_face(img, box)` (lines 125–145): with a shape predictor,
locate landmarks in the box and warp; without one, degrade to the
unmodified image. -/
def alignFace (env : Env M P E) (img : Image) (box : Box) : Image :=
  match env.shapePredictor with
  | some pred => warpAffineFace env img (pred img box)
  | none => img

/-- `_preprocess_image(img)` (lines 65–81): `None` or zero-size input
yields `None`; otherwise resize to 224×224 and normalise. -/
def preprocessImage (env : Env M P E) (img : Option Image) : Option P :=
  match img with
  | none => none
  | some i =>
    if i.size = 0 then none
    else some (env.preprocessInput (env.resize224 i))

/-- `_extract_features(img_array)` (lines 83–96): `None` input yields
`None`; otherwise run the model and flatten. -/
def extractFeatures (env : Env M P E) (arr : Option P) : Option E :=
  match arr with
  | none => none
  | some a => some (env.predict a)

/-! ## The matcher loop of `recognize_faces` (lines 226–235)

`min_distance = float('inf')` is modelled by `none : Option ℚ`. -/

/-- `dist < min_distance`: true against the initial `float('inf')`. -/
def ltMin (d : ℚ) (m : Option ℚ) : Bool :=
  match m with
  | none => true
  | some v => d < v

/-- `min_distance > recognition_threshold`: true when `min_distance`
is still `float('inf')`. -/
def exceeds (m : Option ℚ) (thr : ℚ) : Bool :=
  match m with
  | none => true
  | some v => thr < v

/-- One iteration of the `for known_features, known_label in
zip(self.known_faces_features, self.known_faces_labels)` loop: update
`(min_distance, label)` when `dist < min_distance` (strict). -/
def matchStep (dist : E → E → ℚ) (q : E) (acc : Option ℚ × String)
    (entry : E × String) : Option ℚ × String :=
  let d := dist q entry.1
  if ltMin d acc.1 then (some d, entry.2) else acc

/-- The whole loop: starting from `(float('inf'), 'Unknown')`, fold
`matchStep` over the gallery. -/
def bestMatch (dist : E → E → ℚ) (gallery : List (E × String)) (q : E) :
    Option ℚ × String :=
  gallery.foldl (matchStep dist q) (none, "Unknown")

/-- Lines 226–235 in one piece: run the loop, then
`if min_distance > recognition_threshold: label = 'Unknown'`. -/
def assignLabel (dist : E → E → ℚ) (gallery : List (E × String)) (q : E)
    (thr : ℚ) : String :=
  let r := bestMatch dist gallery q
  if exceeds r.1 thr then "Unknown" else r.2

/-! ## `recognize_faces` (lines 202–241) -/

/-- The bounds check of line 219:
`x < 0 or y < 0 or x + width > frame.shape[1] or y + height > frame.shape[0]`. -/
def oobBox (b : Box) (frame : Image) : Bool :=
  b.x < 0 || b.y < 0 || b.x + b.w > (frame.width : Int)
    || b.y + b.h > (frame.height : Int)

/-- `frame[y:y + height, x:x + width]` (line 239).  Under the bounds
check of line 219 the slice indices are in range, so the numpy slice is
plain drop/take on rows and columns and has shape `(h, w)`. -/
def cropImage (frame : Image) (b : Box) : Image :=
  { height := b.h.toNat, width := b.w.toNat,
    pix := ((frame.pix.drop b.y.toNat).take b.h.toNat).map
      (fun row => (row.drop b.x.toNat).take b.w.toNat) }

/-- The body of the `for face in faces` loop of `recognize_faces`
(lines 217–239).  `continue` is `none`; otherwise the face (with its
assigned label) is appended to `recognized_faces` and the Sighting
Recorder is called on the cropped region and the label. -/
def processFace (env : Env M P E) (knownFeats : List E)
    (knownLabels : List String) (frame : Image) (thr : ℚ)
    (face : RawFace) : Option (RecognizedFace × SightingCall) :=
  if oobBox face.box frame then none
  else
    let aligned := alignFace env frame face.box
    match preprocessImage env (some aligned) with
    | none => none
    | some faceArray =>
      -- `_extract_features` on a non-`None` array is `env.predict`.
      let features := env.predict faceArray
      let label := assignLabel env.dist (knownFeats.zip knownLabels) features thr
      some ({ box := face.box, confidence := face.confidence, label := label },
            { img := cropImage frame face.box, label := label })

/-- `recognize_faces(frame, recognition_threshold)` (lines 202–241):
grayscale the frame, replicate to 3 channels, detect faces at the
default confidence threshold, and process each face in order.  Returns
the `recognized_faces` list together with the list of Sighting
Recorder calls made (in order). -/
def recognizeFaces (env : Env M P E) (knownFeats : List E)
    (knownLabels : List String) (frame : Image) (thr : ℚ) :
    List RecognizedFace × List SightingCall :=
  let gray3 := env.gray2bgr (env.bgr2gray frame)
  let faces := detectFaces env (some gray3) defaultConfidenceThreshold
  faces.foldl
    (fun acc face =>
      match processFace env knownFeats knownLabels frame thr face with
      | none => acc
      | some (rf, call) => (acc.1 ++ [rf], acc.2 ++ [call]))
    ([], [])

/-! ## Gallery construction (lines 164–200) -/

/-- Python's `str.endswith(suffix)`: the last `len(suffix)` characters
equal `suffix` (false when the string is shorter). -/
def hasSuffix (s suf : String) : Bool :=
  let l := s.toList
  let t := suf.toList
  l.drop (l.length - t.length) == t

/-- `filename.endswith(".jpg") or filename.endswith(".jpeg") or
filename.endswith(".png")` (line 170). -/
def hasImageExt (s : String) : Bool :=
  hasSuffix s ".jpg" || hasSuffix s ".jpeg" || hasSuffix s ".png"

/-- `os.path.splitext(filename)[0]` (line 172): drop everything from
the last dot on, unless every character before that dot is itself a
dot (so `".jpg"` keeps its name, as in CPython's `posixpath`;
`os.listdir` entries contain no directory separator). -/
def splitextRoot (s : String) : String :=
  let cs := s.toList
  match cs.reverse.findIdx? (fun c => c = '.') with
  | none => s
  | some i =>
    let pre := cs.take (cs.length - 1 - i)
    if pre.any (fun c => c ≠ '.') then String.mk pre else s

/-- `_preprocess_and_extract(img)` (lines 181–200): detect (default
threshold), take `faces[0]` only, align, preprocess, extract; `None`
on any failure.  (A `None` image gives no detected faces, hence
`None`.) -/
def preprocessAndExtract (env : Env M P E) (img : Option Image) : Option E :=
  match img with
  | none => none
  | some i =>
    match detectFaces env (some i) defaultConfidenceThreshold with
    | [] => none
    | f :: _ =>
      let aligned := alignFace env i f.box
      match preprocessImage env (some aligned) with
      | none => none
      | some faceArray => extractFeatures env (some faceArray)

/-- `load_known_faces` (lines 164–179) over the directory listing
`files`: for each image-extension file, read it, extract features, and
on success append the features and the label (filename without
extension) to the two gallery lists. -/
def loadKnownFaces (env : Env M P E) (files : List String) :
    List E × List String :=
  files.foldl
    (fun acc filename =>
      if hasImageExt filename then
        match preprocessAndExtract env (env.imread filename) with
        | some feats => (acc.1 ++ [feats], acc.2 ++ [splitextRoot filename])
        | none => acc
      else acc)
    ([], [])

/-- The gallery contribution of a single directory entry: `none` for a
non-image extension or a failed extraction, otherwise the
(embedding, label) pair appended by `load_known_faces`. -/
def galleryEntry (env : Env M P E) (fn : String) : Option (E × String) :=
  if hasImageExt fn then
    (preprocessAndExtract env (env.imread fn)).map
      (fun feats => (feats, splitextRoot fn))
  else none

/-! ## Specification vocabulary for the matcher -/

/-- Minimum of an optional running minimum (`none` = `+∞`) and a
value. -/
def minOpt (m : Option ℚ) (d : ℚ) : Option ℚ :=
  match m with
  | none => some d
  | some v => some (min v d)

/-- The minimum of a list of distances, `none` for the empty list. -/
def listMin (l : List ℚ) : Option ℚ :=
  l.foldl minOpt none

/-! ## Concrete instances used for counterexamples and witnesses -/

/-- A 160×120 image standing for the output of `cv2.resize`. -/
def smallBlank : Image := { height := 120, width := 160, pix := [] }

/-- A zero-size image (numpy array with an empty dimension). -/
def zeroImg : Image := { height := 0, width := 0, pix := [] }

/-- A 640×480 frame: downsampling to 160×120 divides both dimensions
by 4. -/
def img640 : Image := { height := 480, width := 640, pix := [[1]] }

/-- A 100×100 frame used to exercise `recognize_faces`. -/
def frame100 : Image := { height := 100, width := 100, pix := [] }

/-- A concrete distance function on rational "embeddings": 0 for
equal embeddings, 3 otherwise (a metric, and kernel-evaluable). -/
def qd (a b : ℚ) : ℚ := if a = b then 0 else 3

/-- A concrete environment with trivial collaborators. -/
def baseEnv : Env Unit Unit ℚ where
  imread := fun _ => none
  resize160 := fun _ => some smallBlank
  mtcnnDetect := fun _ => []
  shapePredictor := none
  getAffineTransform := fun _ _ => ()
  warpAffine := fun i _ _ => i
  resize224 := fun i => i
  preprocessInput := fun _ => ()
  predict := fun _ => 0
  dist := qd
  bgr2gray := fun i => i
  gray2bgr := fun i => i

/-- Environment whose detector reports one face at box (10,10,20,20)
with confidence 0.9. -/
def envC1 : Env Unit Unit ℚ :=
  { baseEnv with mtcnnDetect := fun _ => [⟨⟨10, 10, 20, 20⟩, mkRat 9 10⟩] }

/-- Environment whose 160×120 resize raises `cv2.error`. -/
def envFail : Env Unit Unit ℚ :=
  { baseEnv with resize160 := fun _ => none }

/-- Environment whose detector reports one face at exactly the default
confidence threshold 0.70. -/
def envC5 : Env Unit Unit ℚ :=
  { baseEnv with mtcnnDetect := fun _ => [⟨⟨1, 1, 2, 2⟩, mkRat 7 10⟩] }

/-- Environment whose detector reports one in-bounds face with
confidence 0.8. -/
def envRec : Env Unit Unit ℚ :=
  { baseEnv with mtcnnDetect := fun _ => [⟨⟨1, 1, 2, 2⟩, mkRat 8 10⟩] }

/-- `envRec` with a readable `alice.jpg` and nothing else (the corrupt
`junk.png` reads as `None`). -/
def envGal : Env Unit Unit ℚ :=
  { envRec with imread := fun fn => if fn = "alice.jpg" then some img640 else none }

/-! ## Lemmas about the matcher loop -/

theorem matchStep_fst {E : Type} (dist : E → E → ℚ) (q : E)
    (acc : Option ℚ × String) (e : E × String) :
    (matchStep dist q acc e).1 = minOpt acc.1 (dist q e.1) := by
  rcases acc with ⟨m, lbl⟩
  cases m with
  | none => simp [matchStep, ltMin, minOpt]
  | some v =>
    by_cases h : dist q e.1 < v
    · simp only [matchStep, ltMin, minOpt, h, if_pos, decide_True]
      rw [min_eq_right (le_of_lt h)]
    · simp only [matchStep, ltMin, minOpt, h, decide_False,
        Bool.false_eq_true, if_false]
      rw [min_eq_left (le_of_not_lt h)]

theorem foldl_matchStep_fst {E : Type} (dist : E → E → ℚ) (q : E) :
    ∀ (g : List (E × String)) (acc : Option ℚ × String),
      (g.foldl (matchStep dist q) acc).1 =
        (g.map (fun e => dist q e.1)).foldl minOpt acc.1
  | [], _ => rfl
  | e :: g, acc => by
    rw [List.foldl_cons, List.map_cons, List.foldl_cons,
      foldl_matchStep_fst dist q g, matchStep_fst]

theorem bestMatch_fst {E : Type} (dist : E → E → ℚ)
    (g : List (E × String)) (q : E) :
    (bestMatch dist g q).1 = listMin (g.map (fun e => dist q e.1)) :=
  foldl_matchStep_fst dist q g (none, "Unknown")

theorem foldl_minOpt_some : ∀ (l : List ℚ) (w : ℚ),
    l.foldl minOpt (some w) = some (l.foldl min w)
  | [], _ => rfl
  | d :: l, w => by
    rw [List.foldl_cons, List.foldl_cons]
    exact foldl_minOpt_some l (min w d)

theorem foldl_min_le_init : ∀ (l : List ℚ) (w : ℚ), l.foldl min w ≤ w
  | [], w => le_refl w
  | d :: l, w =>
    le_trans (foldl_min_le_init l (min w d)) (min_le_left w d)

theorem foldl_min_le_mem : ∀ (l : List ℚ) (w d : ℚ), d ∈ l → l.foldl min w ≤ d
  | [], _, _, h => absurd h (List.not_mem_nil _)
  | x :: l, w, d, h => by
    rcases List.mem_cons.mp h with h | h
    · subst h
      exact le_trans (foldl_min_le_init l (min w d)) (min_le_right w d)
    · exact foldl_min_le_mem l (min w x) d h

theorem foldl_min_mem : ∀ (l : List ℚ) (w : ℚ),
    l.foldl min w = w ∨ l.foldl min w ∈ l
  | [], _ => Or.inl rfl
  | x :: l, w => by
    rcases foldl_min_mem l (min w x) with h | h
    · rcases le_total w x with hwx | hxw
      · left
        rw [List.foldl_cons, h, min_eq_left hwx]
      · right
        rw [List.foldl_cons, h, min_eq_right hxw]
        exact List.mem_cons_self x l
    · right
      rw [List.foldl_cons]
      exact List.mem_cons_of_mem x h

theorem listMin_spec {l : List ℚ} {v : ℚ} (h : listMin l = some v) :
    v ∈ l ∧ ∀ d ∈ l, v ≤ d := by
  cases l with
  | nil => simp [listMin] at h
  | cons d l =>
    unfold listMin at h
    rw [List.foldl_cons, show minOpt none d = some d from rfl,
      foldl_minOpt_some] at h
    injection h with h
    subst h
    constructor
    · rcases foldl_min_mem l d with h | h
      · rw [h]; exact List.mem_cons_self d l
      · exact List.mem_cons_of_mem d h
    · intro x hx
      rcases List.mem_cons.mp hx with hx | hx
      · subst hx; exact foldl_min_le_init l x
      · exact foldl_min_le_mem l d x hx

theorem foldl_matchStep_label {E : Type} (dist : E → E → ℚ) (q : E) :
    ∀ (g : List (E × String)) (acc : Option ℚ × String),
      g.foldl (matchStep dist q) acc = acc ∨
        ∃ e ∈ g, (g.foldl (matchStep dist q) acc).1 = some (dist q e.1) ∧
          (g.foldl (matchStep dist q) acc).2 = e.2
  | [], _ => Or.inl rfl
  | x :: g, acc => by
    rw [List.foldl_cons]
    rcases foldl_matchStep_label dist q g (matchStep dist q acc x) with h | ⟨e, he, h1, h2⟩
    · by_cases hl : ltMin (dist q x.1) acc.1 = true
      · right
        refine ⟨x, List.mem_cons_self x g, ?_, ?_⟩ <;>
          rw [h, show matchStep dist q acc x = (some (dist q x.1), x.2) by
            simp [matchStep, hl]]
      · left
        rw [h, show matchStep dist q acc x = acc by simp [matchStep, hl]]
    · right
      exact ⟨e, List.mem_cons_of_mem x he, h1, h2⟩

theorem bestMatch_label {E : Type} (dist : E → E → ℚ)
    (g : List (E × String)) (q : E) :
    bestMatch dist g q = (none, "Unknown") ∨
      ∃ e ∈ g, (bestMatch dist g q).1 = some (dist q e.1) ∧
        (bestMatch dist g q).2 = e.2 :=
  foldl_matchStep_label dist q g (none, "Unknown")

theorem foldl_matchStep_frozen {E : Type} (dist : E → E → ℚ) (q : E)
    (v : ℚ) (lbl : String) :
    ∀ (g : List (E × String)), (∀ p ∈ g, v ≤ dist q p.1) →
      g.foldl (matchStep dist q) (some v, lbl) = (some v, lbl)
  | [], _ => rfl
  | x :: g, h => by
    rw [List.foldl_cons,
      show matchStep dist q (some v, lbl) x = (some v, lbl) by
        simp [matchStep, ltMin, not_lt.mpr (h x (List.mem_cons_self x g))]]
    exact foldl_matchStep_frozen dist q v lbl g
      (fun p hp => h p (List.mem_cons_of_mem x hp))

theorem foldl_matchStep_above {E : Type} (dist : E → E → ℚ) (q : E)
    (de : ℚ) :
    ∀ (g : List (E × String)) (acc : Option ℚ × String),
      (∀ p ∈ g, de < dist q p.1) →
      (acc.1 = none ∨ ∃ w, acc.1 = some w ∧ de < w) →
      (g.foldl (matchStep dist q) acc).1 = none ∨
        ∃ w, (g.foldl (matchStep dist q) acc).1 = some w ∧ de < w
  | [], _, _, hacc => hacc
  | x :: g, acc, hg, hacc => by
    rw [List.foldl_cons]
    refine foldl_matchStep_above dist q de g (matchStep dist q acc x)
      (fun p hp => hg p (List.mem_cons_of_mem x hp)) ?_
    right
    have hx := hg x (List.mem_cons_self x g)
    rcases hacc with h | ⟨w, hw, hdw⟩
    · rcases acc with ⟨m, lbl⟩
      simp only at h
      subst h
      exact ⟨dist q x.1, by simp [matchStep, ltMin], hx⟩
    · rcases acc with ⟨m, lbl⟩
      simp only at hw
      subst hw
      by_cases hlt : dist q x.1 < w
      · exact ⟨dist q x.1, by simp [matchStep, ltMin, hlt], hx⟩
      · exact ⟨w, by simp [matchStep, ltMin, hlt], hdw⟩

/-! ## Lemmas about `recognize_faces` and `load_known_faces` -/

theorem processFace_oob {M P E : Type} (env : Env M P E) (feats : List E)
    (labels : List String) (frame : Image) (thr : ℚ) (face : RawFace)
    (h : oobBox face.box frame = true) :
    processFace env feats labels frame thr face = none := by
  simp [processFace, h]

theorem processFace_some {M P E : Type} (env : Env M P E) (feats : List E)
    (labels : List String) (frame : Image) (thr : ℚ) (face : RawFace)
    (rf : RecognizedFace) (call : SightingCall)
    (h : processFace env feats labels frame thr face = some (rf, call)) :
    oobBox face.box frame = false ∧ rf.box = face.box ∧
      rf.confidence = face.confidence ∧
      call = ⟨cropImage frame face.box, rf.label⟩ ∧
      ∃ faceArray,
        preprocessImage env (some (alignFace env frame face.box)) = some faceArray ∧
        rf.label = assignLabel env.dist (feats.zip labels) (env.predict faceArray) thr := by
  unfold processFace at h
  cases hob : oobBox face.box frame with
  | true => simp [hob] at h
  | false =>
    simp only [hob, Bool.false_eq_true, if_false] at h
    cases hp : preprocessImage env (some (alignFace env frame face.box)) with
    | none => simp [hp] at h
    | some fa =>
      simp only [hp] at h
      injection h with h
      rcases rf with ⟨rbox, rconf, rlabel⟩
      rcases call with ⟨cimg, clabel⟩
      injection h with h1 h2
      injection h1 with hb hc hl
      injection h2 with hci hcl
      subst hb; subst hc; subst hl; subst hci; subst hcl
      exact ⟨rfl, rfl, rfl, rfl, fa, rfl, rfl⟩

theorem recognizeFaces_aux {M P E : Type} (env : Env M P E) (feats : List E)
    (labels : List String) (frame : Image) (thr : ℚ) :
    ∀ (l : List RawFace) (a : List RecognizedFace) (b : List SightingCall),
      l.foldl
        (fun acc face =>
          match processFace env feats labels frame thr face with
          | none => acc
          | some (rf, call) => (acc.1 ++ [rf], acc.2 ++ [call])) (a, b) =
      (a ++ l.filterMap
        (fun face => (processFace env feats labels frame thr face).map Prod.fst),
       b ++ l.filterMap
        (fun face => (processFace env feats labels frame thr face).map Prod.snd))
  | [], a, b => by simp
  | x :: l, a, b => by
    rw [List.foldl_cons]
    cases hfx : processFace env feats labels frame thr x with
    | none =>
      simp only [hfx]
      rw [recognizeFaces_aux env feats labels frame thr l a b]
      simp [List.filterMap_cons, hfx]
    | some rc =>
      rcases rc with ⟨r, c⟩
      simp only [hfx]
      rw [recognizeFaces_aux env feats labels frame thr l (a ++ [r]) (b ++ [c])]
      simp [List.filterMap_cons, hfx]

theorem recognizeFaces_eq {M P E : Type} (env : Env M P E) (feats : List E)
    (labels : List String) (frame : Image) (thr : ℚ) :
    recognizeFaces env feats labels frame thr =
      ((detectFaces env (some (env.gray2bgr (env.bgr2gray frame)))
          defaultConfidenceThreshold).filterMap
        (fun face => (processFace env feats labels frame thr face).map Prod.fst),
       (detectFaces env (some (env.gray2bgr (env.bgr2gray frame)))
          defaultConfidenceThreshold).filterMap
        (fun face => (processFace env feats labels frame thr face).map Prod.snd)) := by
  unfold recognizeFaces
  rw [recognizeFaces_aux]
  simp

theorem filterMap_snd_eq_map {α β γ : Type} (f : α → Option (β × γ))
    (g : β → γ) (h : ∀ x r c, f x = some (r, c) → c = g r) :
    ∀ l : List α,
      l.filterMap (fun x => (f x).map Prod.snd) =
        (l.filterMap (fun x => (f x).map Prod.fst)).map g
  | [] => rfl
  | x :: l => by
    cases hfx : f x with
    | none => simp [List.filterMap_cons, hfx, filterMap_snd_eq_map f g h l]
    | some rc =>
      rcases rc with ⟨r, c⟩
      simp [List.filterMap_cons, hfx, filterMap_snd_eq_map f g h l, h x r c hfx]

theorem loadKnownFaces_aux {M P E : Type} (env : Env M P E) :
    ∀ (files : List String) (a : List E) (b : List String),
      files.foldl
        (fun acc filename =>
          if hasImageExt filename then
            match preprocessAndExtract env (env.imread filename) with
            | some feats => (acc.1 ++ [feats], acc.2 ++ [splitextRoot filename])
            | none => acc
          else acc) (a, b) =
      (a ++ (files.filterMap (galleryEntry env)).map Prod.fst,
       b ++ (files.filterMap (galleryEntry env)).map Prod.snd)
  | [], a, b => by simp
  | fn :: files, a, b => by
    rw [List.foldl_cons]
    cases hext : hasImageExt fn with
    | false =>
      simp only [hext, Bool.false_eq_true, if_false]
      rw [loadKnownFaces_aux env files a b]
      simp [List.filterMap_cons, galleryEntry, hext]
    | true =>
      cases hpe : preprocessAndExtract env (env.imread fn) with
      | none =>
        simp only [hext, if_true, hpe]
        rw [loadKnownFaces_aux env files a b]
        simp [List.filterMap_cons, galleryEntry, hext, hpe]
      | some feats =>
        simp only [hext, if_true, hpe]
        rw [loadKnownFaces_aux env files (a ++ [feats]) (b ++ [splitextRoot fn])]
        simp [List.filterMap_cons, galleryEntry, hext, hpe]

theorem loadKnownFaces_eq {M P E : Type} (env : Env M P E)
    (files : List String) :
    loadKnownFaces env files =
      ((files.filterMap (galleryEntry env)).map Prod.fst,
       (files.filterMap (galleryEntry env)).map Prod.snd) := by
  unfold loadKnownFaces
  rw [loadKnownFaces_aux]
  simp

theorem assignLabel_mem {E : Type} (dist : E → E → ℚ)
    (g : List (E × String)) (q : E) (thr : ℚ) :
    assignLabel dist g q thr = "Unknown" ∨
      assignLabel dist g q thr ∈ g.map Prod.snd := by
  unfold assignLabel
  by_cases hex : exceeds (bestMatch dist g q).1 thr = true
  · simp [hex]
  · simp only [hex, Bool.false_eq_true, if_false]
    rcases bestMatch_label dist g q with h | ⟨e, he, _, h2⟩
    · left
      rw [h]
    · right
      rw [h2]
      exact List.mem_map_of_mem Prod.snd he

theorem recognizeFaces_calls {M P E : Type} (env : Env M P E)
    (feats : List E) (labels : List String) (frame : Image) (thr : ℚ) :
    (recognizeFaces env feats labels frame thr).2 =
      (recognizeFaces env feats labels frame thr).1.map
        (fun rf => SightingCall.mk (cropImage frame rf.box) rf.label) := by
  rw [recognizeFaces_eq]
  exact filterMap_snd_eq_map (processFace env feats labels frame thr)
    (fun rf => SightingCall.mk (cropImage frame rf.box) rf.label)
    (fun x r c hx => by
      obtain ⟨_, hbox, _, hcall, _⟩ :=
        processFace_some env feats labels frame thr x r c hx
      rw [hcall]
      simp [hbox]) _

theorem zip_map_fst_snd {α β : Type} :
    ∀ l : List (α × β), (l.map Prod.fst).zip (l.map Prod.snd) = l
  | [] => rfl
  | (a, b) :: l => by
    rw [List.map_cons, List.map_cons, List.zip_cons_cons, zip_map_fst_snd l]

/-! ## Claims -/

/-- C1, counterexample: the claim says each candidate box is rescaled
back to original-resolution space by the factor by which the image was
downsampled, whatever its dimensions.  For a 640×480 image the
downsampling factor to 160×120 is 4, but `_detect_faces` multiplies
box coordinates by the constant 2: the detector box (10,10,20,20) is
returned as (20,20,40,40), not the original-space (40,40,80,80). -/
theorem C1_box_rescaling_counterexample :
    img640.width = 160 * 4 ∧ img640.height = 120 * 4 ∧
    (detectFaces envC1 (some img640) defaultConfidenceThreshold).map RawFace.box
      = [⟨20, 20, 40, 40⟩] ∧
    (detectFaces envC1 (some img640) defaultConfidenceThreshold).map RawFace.box
      ≠ (envC1.mtcnnDetect smallBlank).map (fun f => (scaleBox 4 f.box)) := by
  refine ⟨rfl, rfl, by decide, by decide⟩

/-- C1, amended: for every accepted image, each candidate box is the
detector's box rescaled by the constant factor 2 (confidence
unchanged), independently of the image's dimensions — so the returned
boxes lie in original-resolution coordinates exactly when the original
is 320×240. -/
theorem C1_box_rescaling {M P E : Type} (env : Env M P E) (img : Image)
    (t : ℚ) (small : Image) (h0 : ¬ img.size = 0)
    (hr : env.resize160 img = some small) :
    ∀ f ∈ detectFaces env (some img) t,
      ∃ g ∈ env.mtcnnDetect small,
        f.box = scaleBox 2 g.box ∧ f.confidence = g.confidence := by
  intro f hf
  unfold detectFaces at hf
  simp only [h0, if_false, hr] at hf
  rw [List.mem_filter] at hf
  obtain ⟨hmem, _⟩ := hf
  rw [List.mem_map] at hmem
  obtain ⟨g, hg, rfl⟩ := hmem
  exact ⟨g, hg, rfl, rfl⟩

/-- C1, witness: the amended statement at the concrete 640×480
image. -/
theorem C1_box_rescaling_witness :
    (¬ img640.size = 0) ∧ envC1.resize160 img640 = some smallBlank ∧
    ∀ f ∈ detectFaces envC1 (some img640) defaultConfidenceThreshold,
      ∃ g ∈ envC1.mtcnnDetect smallBlank,
        f.box = scaleBox 2 g.box ∧ f.confidence = g.confidence :=
  ⟨by decide, rfl,
   C1_box_rescaling envC1 img640 defaultConfidenceThreshold smallBlank
     (by decide) rfl⟩

/-- C4: for a `None` image, a zero-size image, or an image whose
160×120 resize fails, `_detect_faces` returns the empty list (and, the
embedding being total, no exception propagates). -/
theorem C4_detector_fails_soft {M P E : Type} (env : Env M P E) (t : ℚ) :
    detectFaces env none t = [] ∧
    (∀ img : Image, img.size = 0 → detectFaces env (some img) t = []) ∧
    (∀ img : Image, env.resize160 img = none →
      detectFaces env (some img) t = []) := by
  refine ⟨rfl, ?_, ?_⟩
  · intro img h
    simp [detectFaces, h]
  · intro img h
    by_cases hs : img.size = 0
    · simp [detectFaces, hs]
    · simp [detectFaces, hs, h]

/-- C4, witness: the zero-size image and a failing resize, concretely. -/
theorem C4_detector_fails_soft_witness :
    (zeroImg.size = 0 ∧
      detectFaces envFail (some zeroImg) defaultConfidenceThreshold = []) ∧
    (envFail.resize160 img640 = none ∧
      detectFaces envFail (some img640) defaultConfidenceThreshold = []) :=
  ⟨⟨rfl, (C4_detector_fails_soft envFail defaultConfidenceThreshold).2.1 zeroImg rfl⟩,
   ⟨rfl, (C4_detector_fails_soft envFail defaultConfidenceThreshold).2.2 img640 rfl⟩⟩

/-- C5: a candidate face (a detector output, box already rescaled) is
in `_detect_faces`' result iff its confidence is ≥ the threshold — the
boundary is inclusive. -/
theorem C5_confidence_filter {M P E : Type} (env : Env M P E)
    (img : Image) (t : ℚ) (small : Image) (h0 : ¬ img.size = 0)
    (hr : env.resize160 img = some small) :
    ∀ f : RawFace,
      f ∈ detectFaces env (some img) t ↔
        (f ∈ (env.mtcnnDetect small).map
            (fun g => { g with box := scaleBox 2 g.box }) ∧
          t ≤ f.confidence) := by
  intro f
  unfold detectFaces
  simp only [h0, if_false, hr]
  rw [List.mem_filter]
  simp

/-- C5, witness: a face at confidence exactly 0.70 is included. -/
theorem C5_confidence_filter_witness :
    (¬ img640.size = 0) ∧ envC5.resize160 img640 = some smallBlank ∧
    RawFace.mk ⟨2, 2, 4, 4⟩ (mkRat 7 10)
      ∈ detectFaces envC5 (some img640) defaultConfidenceThreshold :=
  ⟨by decide, rfl,
   (C5_confidence_filter envC5 img640 defaultConfidenceThreshold smallBlank
      (by decide) rfl (RawFace.mk ⟨2, 2, 4, 4⟩ (mkRat 7 10))).mpr (by decide)⟩

/-- C2: the nearest-neighbour loop tracks exactly the minimum gallery
distance; when that minimum exceeds the threshold the assigned label is
"Unknown", and when it is ≤ the threshold the assigned label is that of
a gallery entry attaining the minimum (the nearest entry). -/
theorem C2_threshold_rule {E : Type} (dist : E → E → ℚ)
    (g : List (E × String)) (q : E) (thr v : ℚ)
    (hm : (bestMatch dist g q).1 = some v) :
    (bestMatch dist g q).1 = listMin (g.map (fun e => dist q e.1)) ∧
    (thr < v → assignLabel dist g q thr = "Unknown") ∧
    (v ≤ thr →
      ∃ e ∈ g, dist q e.1 = v ∧ (∀ p ∈ g, v ≤ dist q p.1) ∧
        assignLabel dist g q thr = e.2) := by
  refine ⟨bestMatch_fst dist g q, ?_, ?_⟩
  · intro hlt
    unfold assignLabel
    simp [hm, exceeds, hlt]
  · intro hle
    have hex : exceeds (bestMatch dist g q).1 thr = false := by
      simp [hm, exceeds, not_lt.mpr hle]
    rcases bestMatch_label dist g q with h | ⟨e, he, h1, h2⟩
    · rw [h] at hm
      simp at hm
    · have hv : dist q e.1 = v := by
        rw [h1] at hm
        injection hm
      refine ⟨e, he, hv, ?_, ?_⟩
      · intro p hp
        have hfst := bestMatch_fst dist g q
        rw [hm] at hfst
        exact (listMin_spec hfst.symm).2 _
          (List.mem_map_of_mem (fun e => dist q e.1) hp)
      · unfold assignLabel
        simp only [hex, Bool.false_eq_true, if_false]
        exact h2

/-- C2, witness: gallery at distances 0 ("alice") and 3 ("bob") from
the query, threshold 7: the minimum 0 is ≤ 7 and the nearest label is
assigned. -/
theorem C2_threshold_rule_witness :
    (bestMatch qd [((1 : ℚ), "alice"), (5, "bob")] 1).1 = some 0 ∧
    ((0 : ℚ) ≤ 7 →
      ∃ e ∈ [((1 : ℚ), "alice"), (5, "bob")], qd 1 e.1 = 0 ∧
        (∀ p ∈ [((1 : ℚ), "alice"), (5, "bob")], 0 ≤ qd 1 p.1) ∧
        assignLabel qd [((1 : ℚ), "alice"), (5, "bob")] 1 7 = e.2) :=
  ⟨by decide,
   (C2_threshold_rule qd [((1 : ℚ), "alice"), (5, "bob")] 1 7 0 (by decide)).2.2⟩

/-- C3: the strict `<` update means the first gallery entry attaining
the minimum distance wins: if every entry before `e` is strictly
farther and every entry after is no closer, the loop ends on `e`'s
distance and label, and (below threshold) `e`'s label is returned. -/
theorem C3_tie_break {E : Type} (dist : E → E → ℚ) (q : E)
    (pre post : List (E × String)) (e : E × String)
    (hpre : ∀ p ∈ pre, dist q e.1 < dist q p.1)
    (hpost : ∀ p ∈ post, dist q e.1 ≤ dist q p.1) :
    (bestMatch dist (pre ++ e :: post) q).1 = some (dist q e.1) ∧
    (bestMatch dist (pre ++ e :: post) q).2 = e.2 ∧
    ∀ thr : ℚ, dist q e.1 ≤ thr →
      assignLabel dist (pre ++ e :: post) q thr = e.2 := by
  have hfold : bestMatch dist (pre ++ e :: post) q = (some (dist q e.1), e.2) := by
    unfold bestMatch
    rw [List.foldl_append, List.foldl_cons]
    have hacc := foldl_matchStep_above dist q (dist q e.1) pre
      (none, "Unknown") hpre (Or.inl rfl)
    have hstep : matchStep dist q
        (pre.foldl (matchStep dist q) (none, "Unknown")) e
        = (some (dist q e.1), e.2) := by
      rcases hfr : pre.foldl (matchStep dist q) (none, "Unknown") with ⟨m, lbl⟩
      rw [hfr] at hacc
      rcases hacc with h | ⟨w, hw, hdw⟩
      · simp only at h
        subst h
        simp [matchStep, ltMin]
      · simp only at hw
        subst hw
        simp [matchStep, ltMin, hdw]
    rw [hstep]
    exact foldl_matchStep_frozen dist q (dist q e.1) e.2 post hpost
  refine ⟨by rw [hfold], by rw [hfold], ?_⟩
  intro thr hthr
  unfold assignLabel
  rw [hfold]
  simp [exceeds, not_lt.mpr hthr]

/-- C3, witness: a genuine tie — entries 3 ("alice") and −3 ("bob")
are both at distance 3 from the query 0, and "alice", first in
iteration order, wins. -/
theorem C3_tie_break_witness :
    (∀ p ∈ [((-3 : ℚ), "bob")], qd 0 (3 : ℚ) ≤ qd 0 p.1) ∧
    qd 0 (3 : ℚ) = qd 0 (-3 : ℚ) ∧
    (bestMatch qd [((3 : ℚ), "alice"), ((-3 : ℚ), "bob")] 0).2 = "alice" :=
  ⟨by decide, by decide,
   (C3_tie_break qd 0 [] [((-3 : ℚ), "bob")] ((3 : ℚ), "alice")
      (by decide) (by decide)).2.1⟩

/-- C6: a detected face whose box fails the bounds check is skipped
outright: its loop body yields nothing, every face in the returned
list is in bounds, and every Sighting Recorder call originates from an
in-bounds returned face. -/
theorem C6_oob_excluded {M P E : Type} (env : Env M P E) (feats : List E)
    (labels : List String) (frame : Image) (thr : ℚ) :
    (∀ face : RawFace, oobBox face.box frame = true →
        processFace env feats labels frame thr face = none) ∧
    (∀ rf ∈ (recognizeFaces env feats labels frame thr).1,
        oobBox rf.box frame = false) ∧
    (∀ call ∈ (recognizeFaces env feats labels frame thr).2,
        ∃ rf ∈ (recognizeFaces env feats labels frame thr).1,
          oobBox rf.box frame = false ∧
          call = ⟨cropImage frame rf.box, rf.label⟩) := by
  have hmem : ∀ rf ∈ (recognizeFaces env feats labels frame thr).1,
      oobBox rf.box frame = false := by
    intro rf hrf
    rw [recognizeFaces_eq] at hrf
    obtain ⟨face, _, hm⟩ := List.mem_filterMap.mp hrf
    cases hpf : processFace env feats labels frame thr face with
    | none =>
      rw [hpf] at hm
      simp at hm
    | some rc =>
      rcases rc with ⟨r, c⟩
      rw [hpf] at hm
      simp only [Option.map_some'] at hm
      injection hm with hm
      subst hm
      obtain ⟨hoob, hbox, _, _, _⟩ :=
        processFace_some env feats labels frame thr face _ _ hpf
      rw [hbox]
      exact hoob
  refine ⟨fun face h => processFace_oob env feats labels frame thr face h,
    hmem, ?_⟩
  intro call hcall
  rw [recognizeFaces_calls env feats labels frame thr] at hcall
  obtain ⟨rf, hrf, hc⟩ := List.mem_map.mp hcall
  exact ⟨rf, hrf, hmem rf hrf, hc.symm⟩

/-- C6, witness: the spec scenario — a box at x = −5 is rejected by
the bounds check and produces nothing. -/
theorem C6_oob_excluded_witness :
    oobBox ⟨-5, 0, 10, 10⟩ frame100 = true ∧
    processFace envRec [] [] frame100 defaultRecognitionThreshold
      ⟨⟨-5, 0, 10, 10⟩, mkRat 9 10⟩ = none :=
  ⟨by decide,
   (C6_oob_excluded envRec [] [] frame100 defaultRecognitionThreshold).1
     ⟨⟨-5, 0, 10, 10⟩, mkRat 9 10⟩ (by decide)⟩

/-- C8: the Sighting Recorder calls of `recognize_faces` are exactly
one per returned face, each with the cropped face region and the
assigned label, so the number of calls equals the length of the
returned list. -/
theorem C8_one_record_per_face {M P E : Type} (env : Env M P E)
    (feats : List E) (labels : List String) (frame : Image) (thr : ℚ) :
    (recognizeFaces env feats labels frame thr).2 =
      (recognizeFaces env feats labels frame thr).1.map
        (fun rf => SightingCall.mk (cropImage frame rf.box) rf.label) ∧
    (recognizeFaces env feats labels frame thr).2.length =
      (recognizeFaces env feats labels frame thr).1.length := by
  refine ⟨recognizeFaces_calls env feats labels frame thr, ?_⟩
  rw [recognizeFaces_calls env feats labels frame thr, List.length_map]

/-- C9: every face returned by `recognize_faces` carries either the
label "Unknown" or a label present in the gallery label list. -/
theorem C9_labels_closed {M P E : Type} (env : Env M P E) (feats : List E)
    (labels : List String) (frame : Image) (thr : ℚ) :
    ∀ rf ∈ (recognizeFaces env feats labels frame thr).1,
      rf.label = "Unknown" ∨ rf.label ∈ labels := by
  intro rf hrf
  rw [recognizeFaces_eq] at hrf
  obtain ⟨face, _, hm⟩ := List.mem_filterMap.mp hrf
  cases hpf : processFace env feats labels frame thr face with
  | none =>
    rw [hpf] at hm
    simp at hm
  | some rc =>
    rcases rc with ⟨r, c⟩
    rw [hpf] at hm
    simp only [Option.map_some'] at hm
    injection hm with hm
    subst hm
    obtain ⟨_, _, _, _, fa, _, hlbl⟩ :=
      processFace_some env feats labels frame thr face _ _ hpf
    rw [hlbl]
    rcases assignLabel_mem env.dist (feats.zip labels) (env.predict fa) thr
      with h | h
    · exact Or.inl h
    · right
      obtain ⟨e, he, hes⟩ := List.mem_map.mp h
      obtain ⟨e1, e2⟩ := e
      rw [← hes]
      exact (List.of_mem_zip he).2

/-- C9, witness: a processed face with an empty gallery is labelled
"Unknown", which is in the allowed label set. -/
theorem C9_labels_closed_witness :
    RecognizedFace.mk ⟨2, 2, 4, 4⟩ (mkRat 8 10) "Unknown"
        ∈ (recognizeFaces envRec [] [] frame100 defaultRecognitionThreshold).1 ∧
    ((RecognizedFace.mk ⟨2, 2, 4, 4⟩ (mkRat 8 10) "Unknown").label = "Unknown" ∨
      (RecognizedFace.mk ⟨2, 2, 4, 4⟩ (mkRat 8 10) "Unknown").label
        ∈ ([] : List String)) :=
  ⟨by decide,
   C9_labels_closed envRec [] [] frame100 defaultRecognitionThreshold _
     (by decide)⟩

/-- C10: with an empty gallery the running minimum stays at the
initial `float('inf')` (modelled `none`), which exceeds every finite
threshold, so every processed face is labelled "Unknown" — and a
sighting is still recorded for each returned face. -/
theorem C10_empty_gallery {M P E : Type} (env : Env M P E) (frame : Image)
    (thr : ℚ) :
    (∀ (dist : E → E → ℚ) (q : E),
        (bestMatch dist ([] : List (E × String)) q).1 = none) ∧
    (∀ (dist : E → E → ℚ) (q : E),
        assignLabel dist ([] : List (E × String)) q thr = "Unknown") ∧
    (∀ rf ∈ (recognizeFaces env [] [] frame thr).1, rf.label = "Unknown") ∧
    (recognizeFaces env [] [] frame thr).2.length =
      (recognizeFaces env [] [] frame thr).1.length := by
  refine ⟨fun _ _ => rfl, fun _ _ => rfl, ?_, ?_⟩
  · intro rf hrf
    rw [recognizeFaces_eq] at hrf
    obtain ⟨face, _, hm⟩ := List.mem_filterMap.mp hrf
    cases hpf : processFace env [] [] frame thr face with
    | none =>
      rw [hpf] at hm
      simp at hm
    | some rc =>
      rcases rc with ⟨r, c⟩
      rw [hpf] at hm
      simp only [Option.map_some'] at hm
      injection hm with hm
      subst hm
      obtain ⟨_, _, _, _, fa, _, hlbl⟩ :=
        processFace_some env [] [] frame thr face _ _ hpf
      rw [hlbl]
      rfl
  · rw [recognizeFaces_calls env [] [] frame thr, List.length_map]

/-- C10, witness: one processed face, empty gallery, threshold 7 —
labelled "Unknown". -/
theorem C10_empty_gallery_witness :
    RecognizedFace.mk ⟨2, 2, 4, 4⟩ (mkRat 8 10) "Unknown"
        ∈ (recognizeFaces envRec [] [] frame100 7).1 ∧
    (RecognizedFace.mk ⟨2, 2, 4, 4⟩ (mkRat 8 10) "Unknown").label = "Unknown" :=
  ⟨by decide, (C10_empty_gallery envRec frame100 7).2.2.1 _ (by decide)⟩

/-- C7: gallery construction is best-effort and total: the two gallery
lists stay parallel; their pairs are exactly the per-file
contributions, where a non-image extension or a failed extraction
contributes nothing and a successful extraction contributes exactly the
(embedding, filename-without-extension) pair; and extraction uses only
the first detected face. -/
theorem C7_gallery_best_effort {M P E : Type} (env : Env M P E)
    (files : List String) :
    (loadKnownFaces env files).1.length = (loadKnownFaces env files).2.length ∧
    (loadKnownFaces env files).1.zip (loadKnownFaces env files).2 =
      files.filterMap (galleryEntry env) ∧
    (∀ fn, hasImageExt fn = false → galleryEntry env fn = none) ∧
    (∀ fn, preprocessAndExtract env (env.imread fn) = none →
        galleryEntry env fn = none) ∧
    (∀ fn feats, hasImageExt fn = true →
        preprocessAndExtract env (env.imread fn) = some feats →
        galleryEntry env fn = some (feats, splitextRoot fn)) ∧
    (∀ (i : Image) (f : RawFace) (rest : List RawFace),
        detectFaces env (some i) defaultConfidenceThreshold = f :: rest →
        preprocessAndExtract env (some i) =
          extractFeatures env (preprocessImage env (some (alignFace env i f.box)))) := by
  refine ⟨?_, ?_, ?_, ?_, ?_, ?_⟩
  · rw [loadKnownFaces_eq]
    simp
  · rw [loadKnownFaces_eq]
    exact zip_map_fst_snd _
  · intro fn h
    simp [galleryEntry, h]
  · intro fn h
    cases hext : hasImageExt fn <;> simp [galleryEntry, hext, h]
  · intro fn feats hext hpe
    simp [galleryEntry, hext, hpe]
  · intro i f rest hdet
    have hred : preprocessAndExtract env (some i) =
        match detectFaces env (some i) defaultConfidenceThreshold with
        | [] => none
        | f :: _ =>
          match preprocessImage env (some (alignFace env i f.box)) with
          | none => none
          | some faceArray => extractFeatures env (some faceArray) := rfl
    rw [hred, hdet]
    cases hp : preprocessImage env (some (alignFace env i f.box)) with
    | none => simp [hp, extractFeatures]
    | some fa => simp [hp, extractFeatures]

/-- C7, witness: the spec scenario — `alice.jpg` loads with label
"alice", the unreadable `junk.png` is skipped, and the gallery is
exactly the one "alice" entry. -/
theorem C7_gallery_best_effort_witness :
    hasImageExt "alice.jpg" = true ∧
    preprocessAndExtract envGal (envGal.imread "alice.jpg") = some 0 ∧
    preprocessAndExtract envGal (envGal.imread "junk.png") = none ∧
    galleryEntry envGal "alice.jpg" = some (0, "alice") ∧
    galleryEntry envGal "junk.png" = none ∧
    loadKnownFaces envGal ["alice.jpg", "junk.png"] = ([0], ["alice"]) :=
  ⟨by decide, by decide, by decide,
   (C7_gallery_best_effort envGal ["alice.jpg", "junk.png"]).2.2.2.2.1
     "alice.jpg" 0 (by decide) (by decide),
   (C7_gallery_best_effort envGal ["alice.jpg", "junk.png"]).2.2.2.1
     "junk.png" (by decide),
   by decide⟩

end Camster
